import Mathlib

/-!
Shallow embedding of the face-recognition attendance system
(`src/app.py`, `src/face_recognition/face_detector.py`,
`src/face_recognition/face_encoder.py`, `src/simple_camera.py`,
`src/utils/helpers.py`).

Pixels and confidence scores are modelled as rationals, dates and times as
natural numbers (a date is an abstract day index; a time is minutes since
midnight).  External OpenCV primitives (`cv2.imread`, `detectMultiScale`,
`np.corrcoef`, `cv2.resize`, `cv2.rectangle`, `cv2.putText`,
`VideoCapture.read`) are modelled as explicit parameters or as
shape-preserving grid transformations; the repository's own control flow is
translated statement by statement.
-/

namespace AttSys

/-- A grayscale pixel value (uint8 in the source, modelled as a rational). -/
abbrev Gray := ℚ

/-- A colour pixel, the BGR triple of `cv2`. -/
abbrev Pix := ℚ × ℚ × ℚ

/-- A colour frame: rows of BGR pixels (`height × width × 3` ndarray). -/
abbrev Frame := List (List Pix)

/-- A grayscale image: rows of gray pixels. -/
abbrev GrayImage := List (List Gray)

/-- A face bounding box `(x, y, w, h)` as returned by
`face_cascade.detectMultiScale`. -/
structure Region where
  x : Nat
  y : Nat
  w : Nat
  h : Nat
deriving DecidableEq, Repr

/-- The key `lambda f: f[2] * f[3]` used to pick the largest face in
`FaceEncoder.encode_face_from_image`. -/
def Region.area (r : Region) : Nat := r.w * r.h

/-- One entry of `FaceDetector.known_faces` as built by `load_known_faces`:
database id, display name and the stored face encoding (`None` possible). -/
structure KnownFace where
  id : Nat
  name : String
  face_encoding : Option (List ℚ)
deriving DecidableEq, Repr

/-- One entry of `FaceDetector.detected_faces` (the timestamp field is
omitted: no claim mentions it). -/
structure Detection where
  student_id : Option Nat
  name : String
  confidence : ℚ
  location : Region
deriving DecidableEq, Repr

/-! ## Matcher (`FaceDetector._detect_faces`, inner loop) -/

/-- The accumulator step of the matching loop in `_detect_faces`
(face_detector.py lines 133-139): a known face with no stored encoding is
skipped; a NaN correlation (modelled as `none`) is skipped; otherwise the
candidate replaces the current best iff its correlation is strictly above
both the current best and the fixed `0.3` threshold. -/
def matchStep (corr : List ℚ → Option ℚ) (acc : Option KnownFace × ℚ)
    (kf : KnownFace) : Option KnownFace × ℚ :=
  match kf.face_encoding with
  | none => acc
  | some ke =>
    match corr ke with
    | none => acc
    | some c => if acc.2 < c ∧ (3 : ℚ)/10 < c then (some kf, c) else acc

/-- The fold of `matchStep` over `known_faces`, starting from
`best_match = None`, `best_confidence = 0`.  `corr` models
`np.corrcoef(face_encoding, known_encoding)[0, 1]` for the fixed live
encoding, with `none` standing for NaN. -/
def bestMatch (corr : List ℚ → Option ℚ) (known : List KnownFace) :
    Option KnownFace × ℚ :=
  known.foldl (matchStep corr) (none, 0)

/-- The detection record appended for one located face region
(face_detector.py lines 141-156). -/
def matchDetection (corr : List ℚ → Option ℚ) (known : List KnownFace)
    (loc : Region) : Detection :=
  match bestMatch corr known with
  | (some kf, c) => ⟨some kf.id, kf.name, c, loc⟩
  | (none, _) => ⟨none, "Unknown", 0, loc⟩

/-- The valid comparison candidates: known faces with a stored encoding whose
correlation with the live encoding is not NaN, paired with that
correlation. -/
def candidates (corr : List ℚ → Option ℚ) (known : List KnownFace) :
    List (KnownFace × ℚ) :=
  known.filterMap (fun kf =>
    kf.face_encoding.bind (fun ke => (corr ke).map (fun c => (kf, c))))

/-- `matchStep` restricted to the candidate list. -/
def selStep (acc : Option KnownFace × ℚ) (p : KnownFace × ℚ) :
    Option KnownFace × ℚ :=
  if acc.2 < p.2 ∧ (3 : ℚ)/10 < p.2 then (some p.1, p.2) else acc

/-! ## Encoder (`FaceEncoder.encode_face_from_image`) -/

/-- Python's `max(faces, key=...)`: fold keeping the current element unless a
strictly larger key appears, so the first maximal element wins ties. -/
def largestFace (f : Region) (rest : List Region) : Region :=
  rest.foldl (fun best g => if best.area < g.area then g else best) f

/-- The numpy slice `gray[y:y+h, x:x+w]` (slicing clamps at the ends). -/
def cropRegion (img : GrayImage) (r : Region) : GrayImage :=
  ((img.drop r.y).take r.h).map (fun row => (row.drop r.x).take r.w)

/-- Model of the external `cv2.resize(roi, (outW, outH))` primitive: an
`outH × outW` grid sampled from the source by index scaling (the source's
interpolation differs numerically, but the output shape — the only property
the repository relies on — is exact). -/
def resizeTo (img : GrayImage) (outH outW : Nat) : GrayImage :=
  (List.range outH).map (fun i =>
    (List.range outW).map (fun j =>
      ((img.getD (i * img.length / outH) []).getD
        (j * (img.headD []).length / outW) 0)))

/-- `FaceEncoder.encode_face_from_image` (face_encoder.py lines 14-43).
`fileExists` models `os.path.exists`, `img?` the result of `cv2.imread`
(`none` for an unreadable file), and `locate` the external
`detectMultiScale` run on the grayscale image. -/
def encode_face_from_image (fileExists : Bool) (img? : Option GrayImage)
    (locate : GrayImage → List Region) : Option (List ℚ) :=
  if fileExists = false then none
  else
    match img? with
    | none => none
    | some gray =>
      match locate gray with
      | [] => none
      | f :: rest =>
        let largest := largestFace f rest
        let roi := cropRegion gray largest
        let resized := resizeTo roi 100 100
        some resized.flatten

/-! ## Attendance store (`database/models.py` + `app.py` marking routes) -/

/-- A `Student` row, restricted to the fields the marking and registration
routes read. `id` is the database primary key, `student_id` the user-facing
identifier string. -/
structure Student where
  id : Nat
  student_id : String
  name : String
  face_encoding : Option (List ℚ)
  is_active : Bool
deriving DecidableEq, Repr

/-- An `AttendanceRecord` row, restricted to the fields the marking routes
write. `date` is a day index; `time_in` minutes since midnight. -/
structure AttRecord where
  student_id : Nat
  date : Nat
  time_in : Nat
  status : String
  confidence_score : ℚ
deriving DecidableEq, Repr

/-- The `AttendanceRecord.query.filter_by(student_id=..., date=...).first()`
existence check used by all three marking flows. -/
def hasRecordFor (records : List AttRecord) (sid : Nat) (d : Nat) : Bool :=
  records.any (fun r => r.student_id == sid && r.date == d)

/-- The outcome of a marking route, as signalled through its flash message /
JSON response. -/
inductive MarkResult where
  | marked
  | alreadyMarked
  | notFound
  | missingInput
deriving DecidableEq, Repr

/-- `mark_manual_attendance` (app.py lines 408-459): resolve the submitted
`student_id` string against active students, reject a missing id or unknown
student, reject with "already marked present today" when a record for
`(student.id, today)` exists, otherwise append one record with status
`'Present'` and confidence `1.0`. -/
def mark_manual_attendance (students : List Student)
    (records : List AttRecord) (sidText : String) (today now : Nat) :
    List AttRecord × MarkResult :=
  if sidText = "" then (records, .missingInput)
  else
    match students.find? (fun s => s.student_id == sidText && s.is_active) with
    | none => (records, .notFound)
    | some st =>
      if hasRecordFor records st.id today then (records, .alreadyMarked)
      else (records ++ [⟨st.id, today, now, "Present", 1⟩], .marked)

/-- `mark_student_present` (app.py lines 461-518): resolve the submitted
database id via `Student.query.get`, reject an unknown student, reject with
"already marked present today" when a record for `(student_id, today)`
exists, otherwise append one record with status `'Present'` and the
submitted confidence. A missing id in the JSON body is rejected first
(the source's `if not student_id` truthiness would also reject an id of
`0`, a value database primary keys never take). -/
def mark_student_present (students : List Student)
    (records : List AttRecord) (sid? : Option Nat) (conf : ℚ)
    (today now : Nat) : List AttRecord × MarkResult :=
  match sid? with
  | none => (records, .missingInput)
  | some sid =>
    match students.find? (fun s => s.id == sid) with
    | none => (records, .notFound)
    | some st =>
      if hasRecordFor records st.id today then (records, .alreadyMarked)
      else (records ++ [⟨sid, today, now, "Present", conf⟩], .marked)

/-- One sequential call to either primary mark-present flow, carrying its own
calendar date and wall-clock time. -/
inductive MarkCmd where
  | manual (sidText : String) (today now : Nat)
  | present (sid? : Option Nat) (conf : ℚ) (today now : Nat)
deriving DecidableEq, Repr

/-- Dispatch of one marking call against the store. -/
def runMark (students : List Student) (records : List AttRecord) :
    MarkCmd → List AttRecord × MarkResult
  | .manual sidText today now =>
      mark_manual_attendance students records sidText today now
  | .present sid? conf today now =>
      mark_student_present students records sid? conf today now

/-- A sequence of sequential marking calls, threading the store. -/
def runMarks (students : List Student) (records : List AttRecord)
    (cmds : List MarkCmd) : List AttRecord :=
  cmds.foldl (fun recs c => (runMark students recs c).1) records

/-- At most one attendance record per `(studentId, date)` pair. -/
def oncePerDay (records : List AttRecord) : Prop :=
  ∀ sid d, records.countP (fun r => r.student_id == sid && r.date == d) ≤ 1

/-! ## Auto-mark (`app.py` `auto_mark_attendance`) -/

/-- One entry of the detected-faces list as consumed by
`auto_mark_attendance` (only the fields it reads). -/
structure DetectedFace where
  student_id : Option Nat
  confidence : ℚ
deriving DecidableEq, Repr

/-- The body of the `for face in detected_faces` loop (app.py lines 537-572),
threading the pending session records and the `marked_students` list.  A
face with no student id or confidence `≤ 0.3` is skipped; an id with no
student row is skipped (`continue`); a student with an existing record for
today — the query sees pending session inserts, SQLAlchemy autoflush — is
skipped; otherwise one record with status `'Present'` and the face's
confidence is added to the session.  (The source's truthiness test
`face['student_id']` would also skip an id of `0`; detection ids come from
database primary keys, which start at 1, so `none` is the only falsy value
that occurs and the model uses the `Option` directly.) -/
def autoMarkStep (students : List Student) (today now : Nat)
    (acc : List AttRecord × List Nat) (face : DetectedFace) :
    List AttRecord × List Nat :=
  match face.student_id with
  | none => acc
  | some sid =>
    if (3 : ℚ)/10 < face.confidence then
      match students.find? (fun s => s.id == sid) with
      | none => acc
      | some _ =>
        if hasRecordFor acc.1 sid today then acc
        else (acc.1 ++ [⟨sid, today, now, "Present", face.confidence⟩],
              acc.2 ++ [sid])
    else acc

/-- `auto_mark_attendance` (app.py lines 520-591): run the loop over all
detected faces, then commit the whole batch in one `db.session.commit()` iff
`marked_students` is non-empty (otherwise no commit happens and the durable
store is unchanged). Returns the committed store and the marked ids. -/
def auto_mark_attendance (students : List Student)
    (records : List AttRecord) (faces : List DetectedFace)
    (today now : Nat) : List AttRecord × List Nat :=
  let r := faces.foldl (autoMarkStep students today now) (records, [])
  if r.2.isEmpty then (records, []) else r

/-! ## Helper `get_attendance_status` (`utils/helpers.py` lines 212-225) -/

/-- `get_attendance_status(time_in, late_threshold_minutes)`: `'Absent'` for
a missing time, `'Present'` at or before 9:00 (minute 540), `'Late'` at or
before 9:00 plus the threshold, `'Absent'` after. Imported by `app.py` but
never called by any marking flow. -/
def get_attendance_status (time_in : Option Nat)
    (late_threshold_minutes : Nat) : String :=
  match time_in with
  | none => "Absent"
  | some t =>
    if t ≤ 540 then "Present"
    else if t ≤ 540 + late_threshold_minutes then "Late"
    else "Absent"

/-! ## Detection pipeline state (`FaceDetector`) -/

/-- The mutable state of a `FaceDetector` instance. `cap` is `none` when the
handle is `None`, `some b` when a `VideoCapture` handle exists with
`isOpened() = b`. The two thread counters count live capture / detection
loops (a sequential model of the threading: loops exit when `is_running` is
cleared and the joins return). -/
structure DetectorState where
  is_running : Bool
  cap : Option Bool
  current_frame : Option Frame
  detected_faces : List Detection
  known_faces : List KnownFace
  capture_threads : Nat
  detection_threads : Nat
deriving DecidableEq, Repr

/-- `FaceDetector.load_known_faces` (face_detector.py lines 30-40). -/
def load_known_faces (s : DetectorState) (data : List KnownFace) :
    DetectorState :=
  { s with known_faces := data }

/-- `FaceDetector.start_detection` (face_detector.py lines 42-69): when
`is_running` is already set it returns `True` immediately — success, with no
new threads.  Otherwise it opens the camera (`cameraOpens` models whether
`VideoCapture(index).isOpened()`), returns `False` on failure (leaving the
closed handle assigned), else sets `is_running` and spawns one capture and
one detection thread. -/
def start_detection (s : DetectorState) (cameraOpens : Bool) :
    DetectorState × Bool :=
  if s.is_running then (s, true)
  else
    let s1 := { s with cap := some cameraOpens }
    if cameraOpens = false then (s1, false)
    else ({ s1 with
            is_running := true
            capture_threads := s.capture_threads + 1
            detection_threads := s.detection_threads + 1 }, true)

/-- `FaceDetector.stop_detection` (face_detector.py lines 71-93): clear
`is_running` (both loops then exit and the bounded joins return), release
and drop the camera handle, and clear `detected_faces` and `current_frame`
under the lock. Always returns `True`. -/
def stop_detection (s : DetectorState) : DetectorState × Bool :=
  ({ is_running := false, cap := none, current_frame := none,
     detected_faces := [], known_faces := s.known_faces,
     capture_threads := 0, detection_threads := 0 }, true)

/-- `FaceDetector.get_detected_faces` (returns a copy of the list). -/
def get_detected_faces (s : DetectorState) : List Detection :=
  s.detected_faces

/-! ## Annotator (`FaceDetector.get_current_frame_with_annotations`) -/

/-- Python truthiness of `face['student_id']` (`None` and `0` are falsy). -/
def pyTruthy (o : Option Nat) : Bool := o.getD 0 != 0

/-- Membership of `(j, i)` in the closed rectangle `[x, x2] × [y, y2]`. -/
def inRect (x y x2 y2 j i : Int) : Bool :=
  x ≤ j && j ≤ x2 && y ≤ i && i ≤ y2

/-- Membership in the thickness-2 border of the rectangle. -/
def onBorder (x y x2 y2 j i : Int) : Bool :=
  inRect x y x2 y2 j i &&
    (j ≤ x + 1 || x2 - 1 ≤ j || i ≤ y + 1 || y2 - 1 ≤ i)

/-- Pointwise recoloring of one pixel row, with the column index
threaded. -/
def mapRow (f : Int → Pix → Pix) : Nat → List Pix → List Pix
  | _, [] => []
  | j, p :: rest => f j p :: mapRow f (j + 1) rest

/-- Pointwise recoloring of a whole frame, with row and column indices
threaded (`f j i p`: column, row, pixel). -/
def mapGrid (f : Int → Int → Pix → Pix) : Nat → Frame → Frame
  | _, [] => []
  | i, row :: rest => mapRow (fun j p => f j i p) 0 row :: mapGrid f (i + 1) rest

/-- Model of the external `cv2.rectangle` primitive: recolor the border
(thickness 2) or, when `filled`, the whole rectangle; the grid's shape is
unchanged. -/
def drawRect (frame : Frame) (x y x2 y2 : Int) (color : Pix)
    (filled : Bool) : Frame :=
  mapGrid (fun j i p =>
    if (if filled then inRect x y x2 y2 j i else onBorder x y x2 y2 j i)
    then color else p) 0 frame

/-- Model of the external `cv2.putText` primitive: recolor a text box
anchored at the origin; the label string itself only affects pixel content,
never the grid's shape. -/
def putTextModel (frame : Frame) (label : String) (ox oy : Int)
    (color : Pix) : Frame :=
  mapGrid (fun j i p =>
    if inRect ox (oy - 20) (ox + 12 * (label.length : Int)) oy j i
    then color else p) 0 frame

/-- The per-detection drawing block of `get_current_frame_with_annotations`
(face_detector.py lines 177-189): one bounding rectangle, one filled label
background, one label text, green for a matched face, red for `Unknown`. -/
def drawFace (frame : Frame) (face : Detection) : Frame :=
  let x : Int := face.location.x
  let y : Int := face.location.y
  let w : Int := face.location.w
  let h : Int := face.location.h
  let color : Pix := if pyTruthy face.student_id then (0, 255, 0)
    else (0, 0, 255)
  let label := if pyTruthy face.student_id then face.name else "Unknown"
  let f1 := drawRect frame x y (x + w) (y + h) color false
  let f2 := drawRect f1 x (y - 30) (x + w) y color true
  putTextModel f2 label (x + 5) (y - 10) (255, 255, 255)

/-- `FaceDetector.get_current_frame_with_annotations` (face_detector.py
lines 167-195): under the lock, take a copy of the current frame and of the
detected-faces list (`None` frame gives `None`); draw each detection on the
copy; the instance state is untouched. -/
def get_current_frame_with_annotations (s : DetectorState) :
    Option Frame × DetectorState :=
  match s.current_frame with
  | none => (none, s)
  | some fr => (some (s.detected_faces.foldl drawFace fr), s)

/-! ## Frame source (`SimpleCamera`) -/

/-- The mutable state of a `SimpleCamera` instance. -/
structure CameraState where
  running : Bool
  cap : Option Bool
  current_frame : Option Frame
  capture_threads : Nat
deriving DecidableEq, Repr

/-- `SimpleCamera.stop_camera` (simple_camera.py lines 84-104): clear
`running` (the capture loop then exits and the bounded join returns),
release and drop the handle, clear the stored frame under the lock; always
returns `True`. -/
def stop_camera (_s : CameraState) : CameraState × Bool :=
  ({ running := false, cap := none, current_frame := none,
     capture_threads := 0 }, true)

/-- `SimpleCamera.get_frame`: a copy of the stored frame, or `None`. -/
def get_frame (s : CameraState) : Option Frame :=
  s.current_frame

/-! ## Capture loops (`SimpleCamera._capture_frames`,
`FaceDetector._capture_frames`)

Each loop is run against the finite trace of results its device will
produce while the loop is live: `some f` for a successful `cap.read()`,
`none` for a failed one.  The model returns the final stored frame and how
many reads the loop consumed before exiting (fewer than the trace's length
means the loop exited early). -/

/-- `SimpleCamera._capture_frames` (simple_camera.py lines 43-59): a
successful read replaces the stored frame under the lock; a failed read
logs a warning and `break`s out of the loop. -/
def simpleCameraCapture : List (Option Frame) → Option Frame →
    Option Frame × Nat
  | [], cur => (cur, 0)
  | none :: _, cur => (cur, 1)
  | some f :: rest, _ =>
    let r := simpleCameraCapture rest (some f)
    (r.1, r.2 + 1)

/-- `FaceDetector._capture_frames` (face_detector.py lines 95-107): a
successful read replaces the stored frame under the lock; a failed read
sleeps 0.1 s and the loop retries — the loop consumes the whole trace. -/
def detectorCapture : List (Option Frame) → Option Frame →
    Option Frame × Nat
  | [], cur => (cur, 0)
  | none :: rest, cur =>
    let r := detectorCapture rest cur
    (r.1, r.2 + 1)
  | some f :: rest, _ =>
    let r := detectorCapture rest (some f)
    (r.1, r.2 + 1)

/-! ## Registration (`app.py` `register_student`) and route-level start -/

/-- The outcome of a `register_student` POST, as signalled through its flash
messages. -/
inductive RegisterResult where
  | registered
  | validationFailed
  | duplicateId
  | imageMissing
  | emptyFilename
  | uploadFailed
  | noFaceDetected
deriving DecidableEq, Repr

/-- `register_student` (app.py lines 111-197). Inputs model the request and
the external collaborators: `errors` the result of `validate_student_data`,
`hasImage`/`filename` the upload field, `savedPath` the result of
`save_uploaded_file`, `available` the `FACE_RECOGNITION_AVAILABLE` flag and
`encoding?` the result of `face_encoder.encode_face_from_image` on the
saved photo. Returns the student store after the request and the outcome;
only a fully successful request appends a student row. -/
def register_student (available : Bool) (students : List Student)
    (errors : List String) (sid name : String) (hasImage : Bool)
    (filename : String) (savedPath : Option String)
    (encoding? : Option (List ℚ)) (newId : Nat) :
    List Student × RegisterResult :=
  if errors ≠ [] then (students, .validationFailed)
  else if students.any (fun s => s.student_id == sid) then
    (students, .duplicateId)
  else if hasImage = false then (students, .imageMissing)
  else if filename = "" then (students, .emptyFilename)
  else
    match savedPath with
    | none => (students, .uploadFailed)
    | some _ =>
      if available then
        match encoding? with
        | none => (students, .noFaceDetected)
        | some enc =>
          (students ++ [⟨newId, sid, name, some enc, true⟩], .registered)
      else (students ++ [⟨newId, sid, name, none, true⟩], .registered)

/-- The globals of `app.py` that the face-recognition routes touch. -/
structure AppState where
  available : Bool
  face_recognition_active : Bool
  detector : DetectorState
deriving DecidableEq, Repr

/-- The snapshot of enrolled faces built by `start_face_recognition`
(app.py lines 280-291): active students that have a stored encoding. -/
def enrolledSnapshot (students : List Student) : List KnownFace :=
  (students.filter (fun s => s.is_active)).filterMap (fun s =>
    s.face_encoding.map (fun e => ⟨s.id, s.name, some e⟩))

/-- `start_face_recognition` (app.py lines 264-309): refuse when the
capability is absent, refuse with "already active" when the global flag is
set, refuse when no enrolled student has an encoding, else load the
snapshot into the detector and call `start_detection`, setting the global
flag only on success. -/
def start_face_recognition (app : AppState) (students : List Student)
    (cameraOpens : Bool) : AppState × Bool :=
  if app.available = false then (app, false)
  else if app.face_recognition_active then (app, false)
  else
    let data := enrolledSnapshot students
    if data.isEmpty then (app, false)
    else
      let d1 := load_known_faces app.detector data
      let r := start_detection d1 cameraOpens
      if r.2 then
        ({ app with face_recognition_active := true, detector := r.1 }, true)
      else ({ app with detector := r.1 }, false)

/-! ## Lemmas about the matcher -/

theorem foldl_selStep_spec :
    ∀ (l : List (KnownFace × ℚ)) (b : Option KnownFace) (v : ℚ),
    (l.foldl selStep (b, v) = (b, v) ∧ ∀ p ∈ l, p.2 ≤ v ∨ p.2 ≤ (3 : ℚ)/10) ∨
    ∃ pre kf c post, l = pre ++ (kf, c) :: post ∧
      l.foldl selStep (b, v) = (some kf, c) ∧ v < c ∧ (3 : ℚ)/10 < c ∧
      (∀ p ∈ pre, p.2 < c) ∧ (∀ p ∈ post, p.2 ≤ c) := by
  intro l
  induction l with
  | nil => intro b v; exact Or.inl ⟨rfl, by simp⟩
  | cons p t ih =>
    obtain ⟨kf0, c0⟩ := p
    intro b v
    by_cases hfire : v < c0 ∧ (3 : ℚ)/10 < c0
    · have hstep : selStep (b, v) (kf0, c0) = (some kf0, c0) := by
        simp [selStep, hfire]
      rw [List.foldl_cons, hstep]
      rcases ih (some kf0) c0 with ⟨heq, hall⟩ |
        ⟨pre, kf, c, post, hsplit, heq, hv, hthr, hpre, hpost⟩
      · refine Or.inr ⟨[], kf0, c0, t, by simp, heq, hfire.1, hfire.2,
          by simp, ?_⟩
        intro q hq
        rcases hall q hq with h | h
        · exact h
        · exact h.trans (le_of_lt hfire.2)
      · refine Or.inr ⟨(kf0, c0) :: pre, kf, c, post,
          by rw [hsplit, List.cons_append], heq,
          lt_trans hfire.1 hv, hthr, ?_, hpost⟩
        intro q hq
        rcases List.mem_cons.mp hq with rfl | hq'
        · exact hv
        · exact hpre q hq'
    · have hstep : selStep (b, v) (kf0, c0) = (b, v) := by
        simp only [selStep]
        exact if_neg hfire
      rw [List.foldl_cons, hstep]
      rcases ih b v with ⟨heq, hall⟩ |
        ⟨pre, kf, c, post, hsplit, heq, hv, hthr, hpre, hpost⟩
      · refine Or.inl ⟨heq, ?_⟩
        intro q hq
        rcases List.mem_cons.mp hq with rfl | hq'
        · rcases not_and_or.mp hfire with h | h
          · exact Or.inl (le_of_not_lt h)
          · exact Or.inr (le_of_not_lt h)
        · exact hall q hq'
      · refine Or.inr ⟨(kf0, c0) :: pre, kf, c, post,
          by rw [hsplit, List.cons_append], heq,
          hv, hthr, ?_, hpost⟩
        intro q hq
        rcases List.mem_cons.mp hq with rfl | hq'
        · rcases not_and_or.mp hfire with h | h
          · exact lt_of_le_of_lt (le_of_not_lt h) hv
          · exact lt_of_le_of_lt (le_of_not_lt h) hthr
        · exact hpre q hq'

theorem foldl_matchStep_eq_candidates (corr : List ℚ → Option ℚ) :
    ∀ (known : List KnownFace) (acc : Option KnownFace × ℚ),
    known.foldl (matchStep corr) acc =
      (candidates corr known).foldl selStep acc := by
  intro known
  induction known with
  | nil => intro acc; rfl
  | cons kf t ih =>
    intro acc
    cases henc : kf.face_encoding with
    | none =>
      have h1 : matchStep corr acc kf = acc := by simp [matchStep, henc]
      have h2 : candidates corr (kf :: t) = candidates corr t := by
        simp [candidates, henc]
      rw [List.foldl_cons, h1, h2]
      exact ih acc
    | some ke =>
      cases hc : corr ke with
      | none =>
        have h1 : matchStep corr acc kf = acc := by simp [matchStep, henc, hc]
        have h2 : candidates corr (kf :: t) = candidates corr t := by
          simp [candidates, henc, hc]
        rw [List.foldl_cons, h1, h2]
        exact ih acc
      | some c =>
        have h1 : matchStep corr acc kf = selStep acc (kf, c) := by
          simp [matchStep, henc, hc, selStep]
        have h2 : candidates corr (kf :: t) = (kf, c) :: candidates corr t := by
          simp [candidates, henc, hc]
        rw [List.foldl_cons, h1, h2, List.foldl_cons]
        exact ih _

theorem bestMatch_eq_candidates (corr : List ℚ → Option ℚ)
    (known : List KnownFace) :
    bestMatch corr known = (candidates corr known).foldl selStep (none, 0) :=
  foldl_matchStep_eq_candidates corr known (none, 0)

/-- Claim C1: the matcher never selects an enrolled face whose correlation
with the live encoding is NaN (NaN faces never enter `candidates`) or `≤
0.3`; among the candidates exceeding the threshold it selects the strictly
highest correlation, an earlier-listed candidate winning a tie (everything
before the selected candidate scores strictly below it, everything after at
most it); and when no candidate exceeds the threshold the produced
detection is `studentId = none`, name `"Unknown"`, confidence `0`. -/
theorem matchDetection_spec (corr : List ℚ → Option ℚ)
    (known : List KnownFace) (loc : Region) :
    ((∀ p ∈ candidates corr known, p.2 ≤ (3 : ℚ)/10) →
      matchDetection corr known loc = ⟨none, "Unknown", 0, loc⟩) ∧
    (∀ kf c, bestMatch corr known = (some kf, c) →
      matchDetection corr known loc = ⟨some kf.id, kf.name, c, loc⟩ ∧
      (3 : ℚ)/10 < c ∧
      ∃ pre post, candidates corr known = pre ++ (kf, c) :: post ∧
        (∀ p ∈ pre, p.2 < c) ∧ (∀ p ∈ post, p.2 ≤ c)) ∧
    ((∃ p ∈ candidates corr known, (3 : ℚ)/10 < p.2) →
      ∃ kf c, bestMatch corr known = (some kf, c)) := by
  have hspec := foldl_selStep_spec (candidates corr known) none 0
  have heq := bestMatch_eq_candidates corr known
  refine ⟨?_, ?_, ?_⟩
  · intro hlow
    rcases hspec with ⟨hres, _⟩ |
      ⟨pre, kf, c, post, hsplit, _, _, hthr, _, _⟩
    · have hb : bestMatch corr known = (none, 0) := by rw [heq, hres]
      simp [matchDetection, hb]
    · exfalso
      have hmem : (kf, c) ∈ candidates corr known := by
        rw [hsplit]; exact List.mem_append_right _ (List.mem_cons_self _ _)
      exact absurd (hlow _ hmem) (not_le.mpr hthr)
  · intro kf c hbm
    rcases hspec with ⟨hres, _⟩ |
      ⟨pre, kf', c', post, hsplit, hres, _, hthr, hpre, hpost⟩
    · rw [heq, hres] at hbm
      exact absurd hbm (by simp)
    · rw [heq, hres] at hbm
      obtain ⟨hkf, hc⟩ : kf' = kf ∧ c' = c := by
        constructor <;> [exact Option.some.inj (congrArg Prod.fst hbm);
          exact congrArg Prod.snd hbm]
      subst hkf; subst hc
      refine ⟨?_, hthr, pre, post, hsplit, hpre, hpost⟩
      have hb : bestMatch corr known = (some kf', c') := by rw [heq, hres]
      simp [matchDetection, hb]
  · intro ⟨p, hmem, hp⟩
    rcases hspec with ⟨_, hall⟩ |
      ⟨pre, kf, c, post, _, hres, _, _, _, _⟩
    · exfalso
      rcases hall p hmem with h | h
      · exact absurd hp (not_lt.mpr (h.trans (by norm_num)))
      · exact absurd hp (not_lt.mpr h)
    · exact ⟨kf, c, by rw [heq, hres]⟩

/-! ## Start / stop state machine (claims C4, C5) -/

/-- Claim C4 (counterexample): from a fresh detector with a working camera,
the first `start_detection` succeeds, and a second `start_detection`
without an intervening stop also returns `True` — success, not the failure
the claim states (face_detector.py line 45-46: `if self.is_running: return
True`). -/
theorem start_detection_second_call_returns_success :
    (start_detection
      ((start_detection ⟨false, none, none, [], [], 0, 0⟩ true).1) true).2
        = true ∧
    ¬ ((start_detection
      ((start_detection ⟨false, none, none, [], [], 0, 0⟩ true).1) true).2
        = false) := by
  decide

/-- Claim C4 (amended): a second start without an intervening stop returns
failure at the web layer — `start_face_recognition` refuses with "already
active" while the global flag is set, leaving the whole application state
(detector included) untouched — and at the detector layer a second
`start_detection` is a no-op that returns `True` (success) without spawning
a second pair of capture/detection loops. -/
theorem start_when_active_fails_and_spawns_nothing (app : AppState)
    (students : List Student) (cam : Bool)
    (hactive : app.face_recognition_active = true) :
    start_face_recognition app students cam = (app, false) ∧
    (∀ s : DetectorState, s.is_running = true →
      start_detection s cam = (s, true)) := by
  constructor
  · cases hav : app.available with
    | false => simp [start_face_recognition, hav]
    | true => simp [start_face_recognition, hav, hactive]
  · intro s hs
    simp [start_detection, hs]

theorem start_when_active_fails_and_spawns_nothing_witness :
    start_face_recognition
      ⟨true, true, ⟨false, none, none, [], [], 0, 0⟩⟩ [] true =
      (⟨true, true, ⟨false, none, none, [], [], 0, 0⟩⟩, false) :=
  (start_when_active_fails_and_spawns_nothing
    ⟨true, true, ⟨false, none, none, [], [], 0, 0⟩⟩ [] true rfl).1

/-- Claim C5: after `stop_detection` returns — from any prior state — the
call reports success, the stored frame is `None` (so the annotated-frame
getter returns `None`), the detected-faces query returns the empty list,
and a second stop also returns success on the already-cleared state;
likewise for `SimpleCamera.stop_camera` and its frame getter. -/
theorem stop_detection_clears_state (s : DetectorState) (c : CameraState) :
    (stop_detection s).2 = true ∧
    (stop_detection s).1.current_frame = none ∧
    get_detected_faces (stop_detection s).1 = [] ∧
    (get_current_frame_with_annotations (stop_detection s).1).1 = none ∧
    stop_detection (stop_detection s).1 = ((stop_detection s).1, true) ∧
    (stop_camera c).2 = true ∧
    get_frame (stop_camera c).1 = none ∧
    stop_camera (stop_camera c).1 = ((stop_camera c).1, true) :=
  ⟨rfl, rfl, rfl, rfl, rfl, rfl, rfl, rfl⟩

/-! ## Capture loops (claim C9) -/

theorem detectorCapture_consumes_all :
    ∀ (reads : List (Option Frame)) (cur : Option Frame),
    (detectorCapture reads cur).2 = reads.length
  | [], _ => rfl
  | none :: rest, cur => by
    simp [detectorCapture, detectorCapture_consumes_all rest cur]
  | some f :: rest, _ => by
    simp [detectorCapture, detectorCapture_consumes_all rest (some f)]

theorem detectorCapture_skips_failures :
    ∀ (reads : List (Option Frame)) (cur : Option Frame),
    (detectorCapture reads cur).1 =
      (detectorCapture (reads.filter (fun r => r.isSome)) cur).1
  | [], _ => rfl
  | none :: rest, cur => by
    simpa [detectorCapture, List.filter_cons]
      using detectorCapture_skips_failures rest cur
  | some f :: rest, cur => by
    simpa [detectorCapture, List.filter_cons]
      using detectorCapture_skips_failures rest (some f)

/-- Claim C9 (counterexample): the `SimpleCamera` capture loop exits after a
single failed read — on the trace `[failure, good frame]` it consumes only
the one failed read (`break`, simple_camera.py line 53) and the later good
frame is never stored, so a single failed read does terminate that capture
loop. -/
theorem simple_camera_capture_exits_on_failed_read :
    simpleCameraCapture
      ([none, some [[(0, 0, 0)]]] : List (Option Frame)) none = (none, 1) ∧
    ([none, some [[(0, 0, 0)]]] : List (Option Frame)).length = 2 := by
  decide

/-- Claim C9 (amended): the face-detector capture loop
(`FaceDetector._capture_frames`) retries after a short delay on a failed
read and never exits because of one — it consumes its whole read trace, and
failed reads are invisible to the stored frame (filtering them out of the
trace gives the same final frame); the `SimpleCamera` capture loop instead
terminates at the first failed read (abort-on-error). -/
theorem capture_loop_retry_policy :
    (∀ (reads : List (Option Frame)) (cur : Option Frame),
      (detectorCapture reads cur).2 = reads.length) ∧
    (∀ (reads : List (Option Frame)) (cur : Option Frame),
      (detectorCapture reads cur).1 =
        (detectorCapture (reads.filter (fun r => r.isSome)) cur).1) ∧
    (∀ (rest : List (Option Frame)) (cur : Option Frame),
      simpleCameraCapture (none :: rest) cur = (cur, 1)) :=
  ⟨detectorCapture_consumes_all, detectorCapture_skips_failures,
    fun _ _ => rfl⟩

/-! ## Lemmas about the encoder (claim C6) -/

theorem largestFace_spec :
    ∀ (rest : List Region) (f : Region),
    ∃ pre post, f :: rest = pre ++ largestFace f rest :: post ∧
      (∀ g ∈ pre, g.area < (largestFace f rest).area) ∧
      ∀ g ∈ f :: rest, g.area ≤ (largestFace f rest).area
  | [], f => ⟨[], [], by simp [largestFace], by simp, by simp [largestFace]⟩
  | g :: t, f => by
    have hunf : largestFace f (g :: t) =
        largestFace (if f.area < g.area then g else f) t := rfl
    by_cases hlt : f.area < g.area
    · obtain ⟨pre, post, hsplit, hpre, hall⟩ := largestFace_spec t g
      have hL : largestFace f (g :: t) = largestFace g t := by
        rw [hunf, if_pos hlt]
      refine ⟨f :: pre, post, ?_, ?_, ?_⟩
      · rw [hL, List.cons_append, ← hsplit]
      · intro q hq
        rw [hL]
        rcases List.mem_cons.mp hq with rfl | hq'
        · exact lt_of_lt_of_le hlt (hall g (List.mem_cons_self _ _))
        · exact hpre q hq'
      · intro q hq
        rw [hL]
        rcases List.mem_cons.mp hq with rfl | hq'
        · exact le_of_lt (lt_of_lt_of_le hlt (hall g (List.mem_cons_self _ _)))
        · exact hall q hq'
    · obtain ⟨pre, post, hsplit, hpre, hall⟩ := largestFace_spec t f
      have hL : largestFace f (g :: t) = largestFace f t := by
        rw [hunf, if_neg hlt]
      cases pre with
      | nil =>
        rw [List.nil_append, List.cons.injEq] at hsplit
        obtain ⟨hf, hpost⟩ := hsplit
        refine ⟨[], g :: t, ?_, by simp, ?_⟩
        · rw [hL, ← hf, List.nil_append]
        · intro q hq
          rw [hL, ← hf]
          rcases List.mem_cons.mp hq with rfl | hq'
          · exact le_refl _
          rcases List.mem_cons.mp hq' with rfl | hq''
          · exact le_of_not_lt hlt
          · exact le_trans (hall q (List.mem_cons_of_mem _ hq''))
              (by rw [← hf])
      | cons p0 pre2 =>
        rw [List.cons_append, List.cons.injEq] at hsplit
        obtain ⟨hf, ht⟩ := hsplit
        subst hf
        have hfpre : f.area < (largestFace f t).area :=
          hpre f (List.mem_cons_self _ _)
        refine ⟨f :: g :: pre2, post, ?_, ?_, ?_⟩
        · rw [hL, List.cons_append, List.cons_append, ← ht]
        · intro q hq
          rw [hL]
          rcases List.mem_cons.mp hq with rfl | hq'
          · exact hfpre
          rcases List.mem_cons.mp hq' with rfl | hq''
          · exact lt_of_le_of_lt (le_of_not_lt hlt) hfpre
          · exact hpre q (List.mem_cons_of_mem _ hq'')
        · intro q hq
          rw [hL]
          rcases List.mem_cons.mp hq with rfl | hq'
          · exact hall q (List.mem_cons_self _ _)
          rcases List.mem_cons.mp hq' with rfl | hq''
          · exact le_trans (le_of_not_lt hlt)
              (hall f (List.mem_cons_self _ _))
          · exact hall q (List.mem_cons_of_mem _ hq'')

theorem resizeTo_flatten_length (img : GrayImage) (m n : Nat) :
    ((resizeTo img m n).flatten).length = m * n := by
  simp only [resizeTo, List.length_flatten, List.map_map, Function.comp_def,
    List.length_map, List.length_range, List.map_const', List.sum_replicate,
    smul_eq_mul]

/-- Claim C6: `encode_face_from_image` returns `none` when the file is
missing, unreadable, or contains zero detected faces; otherwise it selects
the single face region of largest area `w*h` — the first such region in the
detector's output order on a tie — crops it from the grayscale image,
resizes to `100×100` and returns the flattened vector of exactly `10000`
values. -/
theorem encode_face_from_image_spec (img? : Option GrayImage)
    (locate : GrayImage → List Region) (gray : GrayImage) :
    encode_face_from_image false img? locate = none ∧
    encode_face_from_image true none locate = none ∧
    (locate gray = [] →
      encode_face_from_image true (some gray) locate = none) ∧
    (∀ f rest, locate gray = f :: rest →
      encode_face_from_image true (some gray) locate =
        some ((resizeTo (cropRegion gray (largestFace f rest))
          100 100).flatten) ∧
      ((resizeTo (cropRegion gray (largestFace f rest))
          100 100).flatten).length = 10000 ∧
      (∀ g ∈ f :: rest, g.area ≤ (largestFace f rest).area) ∧
      ∃ pre post, f :: rest = pre ++ largestFace f rest :: post ∧
        ∀ g ∈ pre, g.area < (largestFace f rest).area) := by
  refine ⟨rfl, rfl, ?_, ?_⟩
  · intro h
    simp [encode_face_from_image, h]
  · intro f rest h
    obtain ⟨pre, post, hsplit, hpre, hall⟩ := largestFace_spec rest f
    exact ⟨by simp [encode_face_from_image, h],
      resizeTo_flatten_length _ 100 100, hall, pre, post, hsplit, hpre⟩

/-! ## Registration (claim C7) -/

/-- Claim C7: with the face-recognition capability present, a registration
request whose uploaded photo yields no usable face encoding
(`encode_face_from_image` returned `None`) is rejected: whatever the other
request fields are, no student row is appended and the outcome is never
`registered`, so the student store is unchanged by the failed attempt. -/
theorem register_student_rejects_no_face (students : List Student)
    (errors : List String) (sid name : String) (hasImage : Bool)
    (filename : String) (savedPath : Option String) (newId : Nat) :
    (register_student true students errors sid name hasImage filename
      savedPath none newId).1 = students ∧
    (register_student true students errors sid name hasImage filename
      savedPath none newId).2 ≠ .registered := by
  cases savedPath <;>
    · unfold register_student
      split_ifs <;> simp_all

/-! ## Annotator shape lemmas (claim C8) -/

theorem mapRow_length (f : Int → Pix → Pix) :
    ∀ (j : Nat) (row : List Pix), (mapRow f j row).length = row.length
  | _, [] => rfl
  | j, _ :: rest => by
    simp [mapRow, mapRow_length f (j + 1) rest]

theorem mapGrid_shape (f : Int → Int → Pix → Pix) :
    ∀ (i : Nat) (frame : Frame),
    (mapGrid f i frame).map List.length = frame.map List.length
  | _, [] => rfl
  | i, row :: rest => by
    simp [mapGrid, mapRow_length, mapGrid_shape f (i + 1) rest]

theorem drawFace_shape (frame : Frame) (face : Detection) :
    (drawFace frame face).map List.length = frame.map List.length := by
  simp [drawFace, drawRect, putTextModel, mapGrid_shape]

theorem foldl_drawFace_shape (faces : List Detection) :
    ∀ (frame : Frame),
    (faces.foldl drawFace frame).map List.length = frame.map List.length := by
  induction faces with
  | nil => intro frame; rfl
  | cons face rest ih =>
    intro frame
    rw [List.foldl_cons, ih (drawFace frame face), drawFace_shape]

/-- Claim C8: when a stored frame exists, the annotation operation leaves
the detector state (in particular its stored frame) untouched, and produces
the frame obtained by drawing each published detection in turn — one
rectangle-and-label block per detection (`drawFace`) — on a copy of the
stored frame; the result has the same height and the same row widths as the
stored frame. -/
theorem annotations_preserve_shape_and_state (s : DetectorState) (fr : Frame)
    (hfr : s.current_frame = some fr) :
    (get_current_frame_with_annotations s).2 = s ∧
    (get_current_frame_with_annotations s).1 =
      some (s.detected_faces.foldl drawFace fr) ∧
    (s.detected_faces.foldl drawFace fr).map List.length =
      fr.map List.length ∧
    (s.detected_faces.foldl drawFace fr).length = fr.length := by
  refine ⟨?_, ?_, foldl_drawFace_shape _ fr, ?_⟩
  · simp [get_current_frame_with_annotations, hfr]
  · simp [get_current_frame_with_annotations, hfr]
  · have h := foldl_drawFace_shape s.detected_faces fr
    have := congrArg List.length h
    simpa using this

theorem annotations_preserve_shape_and_state_witness :
    (get_current_frame_with_annotations
      ⟨true, some true, some [[(1, 2, 3)]],
        [⟨some 1, "Alice", 1/2, ⟨0, 0, 1, 1⟩⟩], [], 1, 1⟩).2 =
      ⟨true, some true, some [[(1, 2, 3)]],
        [⟨some 1, "Alice", 1/2, ⟨0, 0, 1, 1⟩⟩], [], 1, 1⟩ :=
  (annotations_preserve_shape_and_state _ [[(1, 2, 3)]] rfl).1

/-! ## Once-per-day invariant (claim C3) -/

theorem hasRecordFor_append (x y : List AttRecord) (sid d : Nat) :
    hasRecordFor (x ++ y) sid d = (hasRecordFor x sid d || hasRecordFor y sid d) := by
  simp [hasRecordFor, List.any_append]

theorem oncePerDay_append_new (records : List AttRecord) (a : AttRecord)
    (h : oncePerDay records)
    (hnew : hasRecordFor records a.student_id a.date = false) :
    oncePerDay (records ++ [a]) := by
  intro sid d
  rw [List.countP_append]
  by_cases hmatch : (a.student_id == sid && a.date == d) = true
  · have hsid : a.student_id = sid := by
      have := (Bool.and_eq_true _ _).mp hmatch
      exact eq_of_beq this.1
    have hd : a.date = d := by
      have := (Bool.and_eq_true _ _).mp hmatch
      exact eq_of_beq this.2
    have hz : records.countP (fun r => r.student_id == sid && r.date == d)
        = 0 := by
      rw [List.countP_eq_zero]
      intro r hr hpred
      have htrue : hasRecordFor records a.student_id a.date = true := by
        rw [hasRecordFor, List.any_eq_true]
        exact ⟨r, hr, by rw [hsid, hd]; exact hpred⟩
      rw [htrue] at hnew
      exact Bool.true_eq_false.mp hnew
    rw [hz]
    simpa using List.countP_le_length _
  · have hz : List.countP (fun r => r.student_id == sid && r.date == d) [a]
        = 0 := by
      simp only [List.countP_cons, List.countP_nil]
      simp [hmatch]
    rw [hz]
    simpa using h sid d

theorem runMark_cases (students : List Student) (records : List AttRecord)
    (cmd : MarkCmd) :
    (runMark students records cmd).1 = records ∨
    ∃ a, (runMark students records cmd).1 = records ++ [a] ∧
      hasRecordFor records a.student_id a.date = false ∧
      a.status = "Present" := by
  cases cmd with
  | manual sidText today now =>
    by_cases hempty : sidText = ""
    · left; simp [runMark, mark_manual_attendance, hempty]
    · cases hfind : students.find?
        (fun s => s.student_id == sidText && s.is_active) with
      | none => left; simp [runMark, mark_manual_attendance, hempty, hfind]
      | some st =>
        cases hrec : hasRecordFor records st.id today with
        | true =>
          left; simp [runMark, mark_manual_attendance, hempty, hfind, hrec]
        | false =>
          right
          exact ⟨⟨st.id, today, now, "Present", 1⟩,
            by simp [runMark, mark_manual_attendance, hempty, hfind, hrec],
            hrec, rfl⟩
  | present sid? conf today now =>
    cases sid? with
    | none => left; simp [runMark, mark_student_present]
    | some sid =>
      cases hfind : students.find? (fun s => s.id == sid) with
      | none => left; simp [runMark, mark_student_present, hfind]
      | some st =>
        have hst : st.id = sid :=
          eq_of_beq (by simpa using List.find?_some hfind)
        cases hrec : hasRecordFor records st.id today with
        | true =>
          left; simp [runMark, mark_student_present, hfind, hrec]
        | false =>
          right
          refine ⟨⟨sid, today, now, "Present", conf⟩,
            by simp [runMark, mark_student_present, hfind, hrec], ?_, rfl⟩
          rw [← hst] at *
          exact hrec

theorem runMarks_oncePerDay (students : List Student) :
    ∀ (cmds : List MarkCmd) (records : List AttRecord),
    oncePerDay records → oncePerDay (runMarks students records cmds)
  | [], _, h => h
  | cmd :: rest, records, h => by
    have hstep : oncePerDay (runMark students records cmd).1 := by
      rcases runMark_cases students records cmd with heq | ⟨a, heq, hnew, _⟩
      · rw [heq]; exact h
      · rw [heq]; exact oncePerDay_append_new records a h hnew
    exact runMarks_oncePerDay students rest _ hstep

/-- Claim C3: provided at most one record per `(studentId, date)` holds of
the store, it still holds after any sequence of sequential mark-present
calls (manual by student-id string, or mark-detected-present by database
id); and when a record for the target student and the call's date already
exists, either flow answers `alreadyMarked` and leaves the store
unchanged. -/
theorem mark_present_once_per_day (students : List Student)
    (records : List AttRecord) (h : oncePerDay records) :
    (∀ cmds, oncePerDay (runMarks students records cmds)) ∧
    (∀ sid st conf today now,
      students.find? (fun s => s.id == sid) = some st →
      hasRecordFor records sid today = true →
      mark_student_present students records (some sid) conf today now =
        (records, .alreadyMarked)) ∧
    (∀ sidText st today now, sidText ≠ "" →
      students.find? (fun s => s.student_id == sidText && s.is_active) =
        some st →
      hasRecordFor records st.id today = true →
      mark_manual_attendance students records sidText today now =
        (records, .alreadyMarked)) := by
  refine ⟨fun cmds => runMarks_oncePerDay students cmds records h, ?_, ?_⟩
  · intro sid st conf today now hfind hrec
    have hst : st.id = sid :=
      eq_of_beq (by simpa using List.find?_some hfind)
    rw [← hst] at hrec
    simp [mark_student_present, hfind, hrec]
  · intro sidText st today now hne hfind hrec
    simp [mark_manual_attendance, hne, hfind, hrec]

theorem mark_present_once_per_day_witness :
    mark_student_present [⟨1, "S001", "Alice", none, true⟩]
      [⟨1, 10, 600, "Present", 1⟩] (some 1) 1 10 601 =
      ([⟨1, 10, 600, "Present", 1⟩], .alreadyMarked) :=
  (mark_present_once_per_day [⟨1, "S001", "Alice", none, true⟩]
      [⟨1, 10, 600, "Present", 1⟩]
      (fun _ _ => by simpa using List.countP_le_length _)).2.1
    1 ⟨1, "S001", "Alice", none, true⟩ 1 10 601 rfl (by decide)

/-! ## Auto-mark loop invariant (claim C2) -/

/-- The inductive specification of the `auto_mark_attendance` loop: starting
from pending session records `sess` and marked list `marked`, the fold over
`faces` appends some batch `ext` of new records such that every new record
is a `'Present'` record for today carrying a qualifying detection's
confidence for an existing student with no prior record, the batch holds at
most one record per student, the marked list grows in step with the batch,
and every qualifying detected student is covered by the final session. -/
def AutoMarkSpec (students : List Student) (today now : Nat)
    (faces : List DetectedFace) (sess : List AttRecord)
    (marked : List Nat) : Prop :=
  ∃ ext : List AttRecord,
    (faces.foldl (autoMarkStep students today now) (sess, marked)).1 =
      sess ++ ext ∧
    (faces.foldl (autoMarkStep students today now) (sess, marked)).2 =
      marked ++ ext.map (fun r => r.student_id) ∧
    (∀ a ∈ ext, a.status = "Present" ∧ a.date = today ∧ a.time_in = now ∧
      (∃ s ∈ students, s.id = a.student_id) ∧
      (∃ f ∈ faces, f.student_id = some a.student_id ∧
        (3 : ℚ)/10 < f.confidence ∧ f.confidence = a.confidence_score) ∧
      hasRecordFor sess a.student_id today = false) ∧
    ext.Pairwise (fun a b => a.student_id ≠ b.student_id) ∧
    (∀ f ∈ faces, ∀ sid, f.student_id = some sid →
      (3 : ℚ)/10 < f.confidence → (∃ s ∈ students, s.id = sid) →
      hasRecordFor (sess ++ ext) sid today = true)

theorem autoMarkSpec_skip (students : List Student) (today now : Nat)
    (face : DetectedFace) (t : List DetectedFace) (sess : List AttRecord)
    (marked : List Nat)
    (hstep : autoMarkStep students today now (sess, marked) face =
      (sess, marked))
    (hcover : ∀ ext sid, face.student_id = some sid →
      (3 : ℚ)/10 < face.confidence → (∃ s ∈ students, s.id = sid) →
      hasRecordFor (sess ++ ext) sid today = true)
    (hih : AutoMarkSpec students today now t sess marked) :
    AutoMarkSpec students today now (face :: t) sess marked := by
  obtain ⟨ext, h1, h2, h3, h4, h5⟩ := hih
  refine ⟨ext, ?_, ?_, ?_, h4, ?_⟩
  · rw [List.foldl_cons, hstep]; exact h1
  · rw [List.foldl_cons, hstep]; exact h2
  · intro a ha
    obtain ⟨hp, hd, htl, hstu, ⟨f, hf, hforig⟩, hnew⟩ := h3 a ha
    exact ⟨hp, hd, htl, hstu, ⟨f, List.mem_cons_of_mem _ hf, hforig⟩, hnew⟩
  · intro f hf sid hfsid hc hex
    rcases List.mem_cons.mp hf with rfl | hft
    · exact hcover ext sid hfsid hc hex
    · exact h5 f hft sid hfsid hc hex

theorem autoMark_fold_spec (students : List Student) (today now : Nat) :
    ∀ (faces : List DetectedFace) (sess : List AttRecord)
      (marked : List Nat),
    AutoMarkSpec students today now faces sess marked := by
  intro faces
  induction faces with
  | nil =>
    intro sess marked
    exact ⟨[], by simp, by simp, by simp, List.Pairwise.nil, by simp⟩
  | cons face t ih =>
    intro sess marked
    cases hsid : face.student_id with
    | none =>
      refine autoMarkSpec_skip students today now face t sess marked
        (by simp [autoMarkStep, hsid]) ?_ (ih sess marked)
      intro ext sid hfsid _ _
      rw [hsid] at hfsid
      exact absurd hfsid (by simp)
    | some sid =>
      by_cases hconf : (3 : ℚ)/10 < face.confidence
      · cases hfind : students.find? (fun s => s.id == sid) with
        | none =>
          refine autoMarkSpec_skip students today now face t sess marked
            (by simp [autoMarkStep, hsid, hconf, hfind]) ?_ (ih sess marked)
          intro ext sid' hfsid _ hex
          rw [hsid] at hfsid
          obtain rfl : sid = sid' := Option.some.inj hfsid
          exfalso
          obtain ⟨s, hs, hsid2⟩ := hex
          have hsome : (students.find? (fun s => s.id == sid)).isSome :=
            List.find?_isSome.mpr ⟨s, hs, by simp [hsid2]⟩
          rw [hfind] at hsome
          simp at hsome
        | some st =>
          cases hrec : hasRecordFor sess sid today with
          | true =>
            refine autoMarkSpec_skip students today now face t sess marked
              (by simp [autoMarkStep, hsid, hconf, hfind, hrec])
              ?_ (ih sess marked)
            intro ext sid' hfsid _ _
            rw [hsid] at hfsid
            obtain rfl : sid = sid' := Option.some.inj hfsid
            simp [hasRecordFor_append, hrec]
          | false =>
            have hstep : autoMarkStep students today now (sess, marked) face
                = (sess ++ [⟨sid, today, now, "Present", face.confidence⟩],
                   marked ++ [sid]) := by
              simp [autoMarkStep, hsid, hconf, hfind, hrec]
            obtain ⟨ext, h1, h2, h3, h4, h5⟩ :=
              ih (sess ++ [⟨sid, today, now, "Present", face.confidence⟩])
                (marked ++ [sid])
            refine ⟨⟨sid, today, now, "Present", face.confidence⟩ :: ext,
              ?_, ?_, ?_, ?_, ?_⟩
            · rw [List.foldl_cons, hstep, h1]
              simp [List.append_assoc]
            · rw [List.foldl_cons, hstep, h2]
              simp [List.append_assoc]
            · intro a ha
              rcases List.mem_cons.mp ha with rfl | haext
              · refine ⟨rfl, rfl, rfl, ?_, ?_, hrec⟩
                · have hstid : st.id = sid :=
                    eq_of_beq (by simpa using List.find?_some hfind)
                  exact ⟨st, List.mem_of_find?_eq_some hfind, hstid⟩
                · exact ⟨face, List.mem_cons_self _ _, by rw [hsid], hconf,
                    rfl⟩
              · obtain ⟨hp, hd, htl, hstu, ⟨f, hf, hforig⟩, hnew⟩ :=
                  h3 a haext
                refine ⟨hp, hd, htl, hstu,
                  ⟨f, List.mem_cons_of_mem _ hf, hforig⟩, ?_⟩
                rw [hasRecordFor_append] at hnew
                exact (Bool.or_eq_false_iff.mp hnew).1
            · rw [List.pairwise_cons]
              refine ⟨?_, h4⟩
              intro b hb hbeq
              obtain ⟨_, _, _, _, _, hnew⟩ := h3 b hb
              rw [hasRecordFor_append] at hnew
              have hone : hasRecordFor
                  [(⟨sid, today, now, "Present", face.confidence⟩ :
                    AttRecord)] b.student_id today = true := by
                simp [hasRecordFor, ← hbeq]
              rw [hone] at hnew
              simp at hnew
            · intro f hf sid' hfsid hc hex
              rcases List.mem_cons.mp hf with rfl | hft
              · rw [hsid] at hfsid
                obtain rfl : sid = sid' := Option.some.inj hfsid
                simp [hasRecordFor_append, hasRecordFor]
              · have hcov := h5 f hft sid' hfsid hc hex
                rw [List.append_assoc] at hcov
                simpa using hcov
      · refine autoMarkSpec_skip students today now face t sess marked
          (by simp [autoMarkStep, hsid, hconf]) ?_ (ih sess marked)
        intro ext sid' hfsid hc _
        exact absurd hc hconf

/-- Claim C2: auto-mark skips every detection with confidence `≤ 0.3` or a
null student id (every new record originates from a detection above the
threshold), skips every student who already has a record for today, creates
exactly one new record per remaining detected student — status `'Present'`
with that detection's confidence — and commits the whole batch at the end
(`ext` is appended in one block; when no detection qualifies, nothing is
committed and the store is returned unchanged). -/
theorem auto_mark_attendance_spec (students : List Student)
    (records : List AttRecord) (faces : List DetectedFace)
    (today now : Nat) :
    ∃ ext : List AttRecord,
      (auto_mark_attendance students records faces today now).1 =
        records ++ ext ∧
      (∀ a ∈ ext, a.status = "Present" ∧ a.date = today ∧
        (∃ s ∈ students, s.id = a.student_id) ∧
        (∃ f ∈ faces, f.student_id = some a.student_id ∧
          (3 : ℚ)/10 < f.confidence ∧ f.confidence = a.confidence_score) ∧
        hasRecordFor records a.student_id today = false) ∧
      ext.Pairwise (fun a b => a.student_id ≠ b.student_id) ∧
      (∀ f ∈ faces, ∀ sid, f.student_id = some sid →
        (3 : ℚ)/10 < f.confidence → (∃ s ∈ students, s.id = sid) →
        hasRecordFor records sid today = false →
        ∃ a ∈ ext, a.student_id = sid) := by
  obtain ⟨ext, h1, h2, h3, h4, h5⟩ :=
    autoMark_fold_spec students today now faces records []
  by_cases hemp :
    (faces.foldl (autoMarkStep students today now) (records, [])).2.isEmpty
  · have hext : ext = [] := by
      rw [h2] at hemp
      simpa using hemp
    subst hext
    refine ⟨[], by simp [auto_mark_attendance, hemp], by simp,
      List.Pairwise.nil, ?_⟩
    intro f hf sid hfsid hc hex hnew
    have htrue := h5 f hf sid hfsid hc hex
    rw [List.append_nil] at htrue
    rw [htrue] at hnew
    exact absurd hnew (by simp)
  · refine ⟨ext, ?_, ?_, h4, ?_⟩
    · have : auto_mark_attendance students records faces today now =
          faces.foldl (autoMarkStep students today now) (records, []) := by
        simp [auto_mark_attendance, hemp]
      rw [this, h1]
    · intro a ha
      obtain ⟨hp, hd, _, hstu, horig, hnew⟩ := h3 a ha
      exact ⟨hp, hd, hstu, horig, hnew⟩
    · intro f hf sid hfsid hc hex hnew
      have htrue := h5 f hf sid hfsid hc hex
      rw [hasRecordFor_append, hnew, Bool.false_or] at htrue
      rw [hasRecordFor, List.any_eq_true] at htrue
      obtain ⟨a, ha, hpa⟩ := htrue
      have := (Bool.and_eq_true _ _).mp hpa
      exact ⟨a, ha, eq_of_beq this.1⟩

/-! ## Statuses of the three marking flows (claim C10) -/

/-- Claim C10: every attendance record created by any of the three marking
flows — manual marking by student-id string, marking a detected student
present, auto-mark — has status exactly `'Present'`; the arrival time is
never consulted, even though `get_attendance_status` (imported by `app.py`)
maps the very same arrival times to `'Late'` or `'Absent'`. -/
theorem marking_flows_always_present (students : List Student)
    (records : List AttRecord) (sidText : String) (sid? : Option Nat)
    (conf : ℚ) (faces : List DetectedFace) (today now : Nat) :
    (∀ r ∈ (mark_manual_attendance students records sidText today now).1,
      r ∈ records ∨ r.status = "Present") ∧
    (∀ r ∈ (mark_student_present students records sid? conf today now).1,
      r ∈ records ∨ r.status = "Present") ∧
    (∀ r ∈ (auto_mark_attendance students records faces today now).1,
      r ∈ records ∨ r.status = "Present") ∧
    get_attendance_status (some 550) 15 = "Late" ∧
    get_attendance_status (some 560) 15 = "Absent" ∧
    ("Late" : String) ≠ "Present" ∧ ("Absent" : String) ≠ "Present" := by
  refine ⟨?_, ?_, ?_, by decide, by decide, by decide, by decide⟩
  · intro r hr
    have hr' : r ∈ (runMark students records
        (MarkCmd.manual sidText today now)).1 := hr
    rcases runMark_cases students records (.manual sidText today now) with
      heq | ⟨a, heq, _, hstat⟩
    · rw [heq] at hr'
      exact Or.inl hr'
    · rw [heq] at hr'
      rcases List.mem_append.mp hr' with h | h
      · exact Or.inl h
      · have : r = a := by simpa using h
        exact Or.inr (this ▸ hstat)
  · intro r hr
    have hr' : r ∈ (runMark students records
        (MarkCmd.present sid? conf today now)).1 := hr
    rcases runMark_cases students records (.present sid? conf today now) with
      heq | ⟨a, heq, _, hstat⟩
    · rw [heq] at hr'
      exact Or.inl hr'
    · rw [heq] at hr'
      rcases List.mem_append.mp hr' with h | h
      · exact Or.inl h
      · have : r = a := by simpa using h
        exact Or.inr (this ▸ hstat)
  · intro r hr
    obtain ⟨ext, h1, _, h3, _, _⟩ :=
      autoMark_fold_spec students today now faces records []
    by_cases hemp :
      (faces.foldl (autoMarkStep students today now) (records, [])).2.isEmpty
    · have : (auto_mark_attendance students records faces today now).1 =
          records := by
        simp [auto_mark_attendance, hemp]
      rw [this] at hr
      exact Or.inl hr
    · have : (auto_mark_attendance students records faces today now).1 =
          records ++ ext := by
        have heq : auto_mark_attendance students records faces today now =
            faces.foldl (autoMarkStep students today now) (records, []) := by
          simp [auto_mark_attendance, hemp]
        rw [heq, h1]
      rw [this] at hr
      rcases List.mem_append.mp hr with h | h
      · exact Or.inl h
      · exact Or.inr (h3 r h).1

end AttSys
